import Mathlib

/-!
# Moo Mines — shallow embedding and verification

This file embeds the game logic of `src/src/App.jsx` (the "Moo Mines" game)
in Lean 4 and proves properties about it.

Modelling conventions:
* JavaScript numbers used for money (balance, wager, multiplier) are modelled
  as real numbers; `Number(x.toFixed(2))` is modelled as `round2` (round to the
  nearest multiple of 1/100, ties rounded up — the source's rounding mode at
  exact ties is an artefact of binary floating point and the spec leaves it
  unspecified, so every concrete computation below is chosen away from ties).
* `Math.pow` with the fractional exponent 2.2 is real-number exponentiation
  (`Real.rpow`).
* Timestamps (epoch milliseconds) are integers.
* The `revealed` board is the JavaScript array used as an index→boolean map:
  a function `ℤ → Bool` (out-of-range reads yield `undefined`, i.e. `false`,
  and out-of-range writes are recorded — exactly as in the source).
* The hazard position produced by `randomMineIndex()` is passed to the
  operations as an explicit parameter (`newMine`), making the randomness an
  input of the model.
* `startRound` is the start action as exposed to the player: the Start button
  runs `startGame` and is disabled when `gameState === "playing" || balance <= 0`
  (App.jsx line 218); that disabled condition is the `NoFunds` /
  invalid-state gate of the spec's `startRound`.
-/

/-- `SIZE` from App.jsx line 19. -/
def SIZE : ℕ := 5

/-- `TOTAL_TILES = SIZE * SIZE` from App.jsx line 20. -/
def TOTAL_TILES : ℕ := SIZE * SIZE

/-- `SAFE_TILES = TOTAL_TILES - 1` from App.jsx line 21. -/
def SAFE_TILES : ℕ := TOTAL_TILES - 1

/-- `MIN_MULT` from App.jsx line 22. -/
noncomputable def MIN_MULT : ℝ := 1.0

/-- `MAX_MULT` from App.jsx line 23. -/
noncomputable def MAX_MULT : ℝ := 20.0

/-- `CLAIM_AMOUNT` from App.jsx line 24, as a real amount added to the balance. -/
noncomputable def CLAIM_AMOUNT : ℝ := 100

/-- `CLAIM_INTERVAL = 6 * 60 * 60 * 1000` milliseconds, App.jsx line 25. -/
def CLAIM_INTERVAL : ℤ := 6 * 60 * 60 * 1000

/-- Model of `Number(x.toFixed(2))`: round to two decimal places. -/
noncomputable def round2 (x : ℝ) : ℝ := ((round (x * 100) : ℤ) : ℝ) / 100

/-- `curvedMultiplier` from App.jsx lines 27–33. -/
noncomputable def curvedMultiplier (safeRevealed : ℕ) : ℝ :=
  if safeRevealed = 0 then 1.0
  else
    let t : ℝ := min (max ((safeRevealed : ℝ) / (SAFE_TILES : ℕ)) 0) 1
    let m : ℝ := 1.05 + (MAX_MULT - 1.05) * t ^ (2.2 : ℝ)
    round2 m

/-! ## Helper lemmas about `round2` -/

theorem round_monotone {x y : ℝ} (h : x ≤ y) : round x ≤ round y := by
  rw [round_eq, round_eq]
  exact Int.floor_mono (by linarith)

theorem round2_monotone {x y : ℝ} (h : x ≤ y) : round2 x ≤ round2 y := by
  unfold round2
  have : round (x * 100) ≤ round (y * 100) := round_monotone (by linarith)
  have hc : ((round (x * 100) : ℤ) : ℝ) ≤ ((round (y * 100) : ℤ) : ℝ) :=
    Int.cast_le.mpr this
  linarith

/-- Evaluate `round2` at a point, given bracketing bounds for the scaled value. -/
theorem round2_eval (x : ℝ) (n : ℤ) (h₁ : (n : ℝ) ≤ x * 100 + 1 / 2)
    (h₂ : x * 100 + 1 / 2 < (n : ℝ) + 1) : round2 x = (n : ℝ) / 100 := by
  unfold round2
  have : round (x * 100) = n := by
    rw [round_eq]
    exact Int.floor_eq_iff.mpr ⟨h₁, by linarith⟩
  rw [this]

/-- `round2` fixes exact multiples of 1/100. -/
theorem round2_int_div (k : ℤ) : round2 ((k : ℝ) / 100) = (k : ℝ) / 100 := by
  unfold round2
  have h : (k : ℝ) / 100 * 100 = (k : ℝ) := by ring
  rw [h, round_intCast]

theorem round2_one : round2 1 = 1 := by
  have h : (1 : ℝ) = ((100 : ℤ) : ℝ) / 100 := by norm_num
  rw [h]
  exact round2_int_div 100

/-! ## Helper lemmas about `curvedMultiplier` -/

theorem safeTiles_cast : ((SAFE_TILES : ℕ) : ℝ) = 24 := by
  norm_num [SAFE_TILES, TOTAL_TILES, SIZE]

/-- For `1 ≤ n ≤ 24` the clamp in `curvedMultiplier` is the identity. -/
theorem curvedMultiplier_eq (n : ℕ) (h1 : 1 ≤ n) (h2 : n ≤ 24) :
    curvedMultiplier n = round2 (1.05 + 18.95 * ((n : ℝ) / 24) ^ (2.2 : ℝ)) := by
  unfold curvedMultiplier
  rw [if_neg (by omega)]
  have hcast : ((SAFE_TILES : ℕ) : ℝ) = 24 := safeTiles_cast
  have h0 : (0 : ℝ) ≤ (n : ℝ) / 24 := by positivity
  have hle : (n : ℝ) / 24 ≤ 1 := by
    rw [div_le_one (by norm_num)]
    exact_mod_cast h2
  rw [hcast]
  rw [max_eq_left h0, min_eq_left hle]
  norm_num [MAX_MULT]

theorem round2_105 : round2 1.05 = 1.05 := by
  have h : (1.05 : ℝ) = ((105 : ℤ) : ℝ) / 100 := by norm_num
  rw [h]
  exact round2_int_div 105

theorem round2_20 : round2 20 = 20 := by
  have h : (20 : ℝ) = ((2000 : ℤ) : ℝ) / 100 := by norm_num
  rw [h]
  exact round2_int_div 2000

theorem curvedMultiplier_bounds (n : ℕ) (h1 : 1 ≤ n) (h2 : n ≤ 24) :
    1.05 ≤ curvedMultiplier n ∧ curvedMultiplier n ≤ 20 := by
  rw [curvedMultiplier_eq n h1 h2]
  have h0 : (0 : ℝ) ≤ (n : ℝ) / 24 := by positivity
  have hle : (n : ℝ) / 24 ≤ 1 := by
    rw [div_le_one (by norm_num)]
    exact_mod_cast h2
  have hp0 : (0 : ℝ) ≤ ((n : ℝ) / 24) ^ (2.2 : ℝ) := Real.rpow_nonneg h0 _
  have hp1 : ((n : ℝ) / 24) ^ (2.2 : ℝ) ≤ 1 := Real.rpow_le_one h0 hle (by norm_num)
  constructor
  · have : round2 1.05 ≤ round2 (1.05 + 18.95 * ((n : ℝ) / 24) ^ (2.2 : ℝ)) :=
      round2_monotone (by nlinarith)
    rw [round2_105] at this
    exact this
  · have : round2 (1.05 + 18.95 * ((n : ℝ) / 24) ^ (2.2 : ℝ)) ≤ round2 20 :=
      round2_monotone (by nlinarith)
    rw [round2_20] at this
    exact this

theorem curvedMultiplier_zero : curvedMultiplier 0 = 1 := by
  unfold curvedMultiplier
  norm_num

theorem curvedMultiplier_top : curvedMultiplier 24 = 20 := by
  rw [curvedMultiplier_eq 24 (by norm_num) le_rfl]
  have h1 : ((24 : ℕ) : ℝ) / 24 = 1 := by norm_num
  rw [h1, Real.one_rpow]
  have : (1.05 : ℝ) + 18.95 * 1 = 20 := by norm_num
  rw [this, round2_20]

/-! ## The game state -/

/-- The `gameState` values of App.jsx: `"idle"`, `"playing"`, `"cashout"`, `"busted"`. -/
inductive GameState where
  | idle
  | playing
  | cashout
  | busted
deriving DecidableEq

/-- The React state of `MooMines` (App.jsx lines 60–73): `balance`, `wager`,
`mineIdx`, `revealed`, `gameState`, `safeRevealed`, `lastClaim`.
`revealed` is the array used as an index→boolean map. -/
structure MooState where
  balance : ℝ
  wager : ℝ
  mineIdx : ℤ
  revealed : ℤ → Bool
  gameState : GameState
  safeRevealed : ℕ
  lastClaim : ℤ

/-- `potentialPayout` from App.jsx lines 83–86:
`Number((wager * currentMultiplier).toFixed(2))`. -/
noncomputable def potentialPayout (s : MooState) : ℝ :=
  round2 (s.wager * curvedMultiplier s.safeRevealed)

/-- `startGame` from App.jsx lines 97–106.  The freshly drawn
`randomMineIndex()` is the parameter `newMine`.  The `if (w <= 0) return`
guard of line 99 is kept verbatim (it is unreachable: `w ≥ 1`). -/
noncomputable def startGame (newMine : ℤ) (s : MooState) : MooState :=
  let w := max 1 (min s.wager s.balance)
  if w ≤ 0 then s
  else
    { s with
      wager := w
      balance := round2 (s.balance - w)
      revealed := fun _ => false
      mineIdx := newMine
      safeRevealed := 0
      gameState := .playing }

/-- The start action as exposed to the player: the Start button runs
`startGame` and is disabled when `gameState === "playing" || balance <= 0`
(App.jsx line 218); a click on the disabled button does nothing.  The
`balance ≤ 0` arm of the gate is the spec's `NoFunds` condition. -/
noncomputable def startRound (newMine : ℤ) (s : MooState) : MooState :=
  if s.gameState = .playing ∨ s.balance ≤ 0 then s
  else startGame newMine s

/-- `NoFunds`: the reported condition that disables the start action
(App.jsx line 218, `balance <= 0`). -/
def NoFunds (s : MooState) : Prop := s.balance ≤ 0

/-- `revealTile` from App.jsx lines 108–124 (the audio side effects of the
excluded UI layer are dropped). -/
def revealTile (idx : ℤ) (s : MooState) : MooState :=
  if s.gameState ≠ .playing then s
  else if s.revealed idx then s
  else
    let newRevealed := fun j => if j = idx then true else s.revealed j
    if idx = s.mineIdx then
      { s with revealed := newRevealed, gameState := .busted }
    else
      { s with revealed := newRevealed, safeRevealed := s.safeRevealed + 1 }

/-- `cashOut` from App.jsx lines 126–131. -/
noncomputable def cashOut (s : MooState) : MooState :=
  if s.gameState ≠ .playing then s
  else
    { s with
      balance := round2 (s.balance + potentialPayout s)
      gameState := .cashout }

/-- `resetRound` from App.jsx lines 133–138. -/
def resetRound (newMine : ℤ) (s : MooState) : MooState :=
  { s with
    revealed := fun _ => false
    mineIdx := newMine
    safeRevealed := 0
    gameState := .idle }

/-- `canClaim` from App.jsx line 143: `timeSinceClaim >= CLAIM_INTERVAL`. -/
def canClaim (now lastClaim : ℤ) : Bool :=
  decide (now - lastClaim ≥ CLAIM_INTERVAL)

/-- `claimPoints` from App.jsx lines 146–150. -/
noncomputable def claimPoints (now : ℤ) (s : MooState) : MooState :=
  if canClaim now s.lastClaim then
    { s with balance := s.balance + CLAIM_AMOUNT, lastClaim := now }
  else s

/-- `timeLeft` from App.jsx line 144: `CLAIM_INTERVAL - timeSinceClaim`. -/
def timeLeft (now lastClaim : ℤ) : ℤ :=
  CLAIM_INTERVAL - (now - lastClaim)

/-- `formatTime` from App.jsx lines 153–158. -/
def formatTime (ms : ℤ) : String :=
  if ms ≤ 0 then "Ready!"
  else
    toString (ms / (1000 * 60 * 60)) ++ "h " ++
      toString (ms % (1000 * 60 * 60) / (1000 * 60)) ++ "m"

/-! ## The claims -/

/-- C3: `curvedMultiplier 0` is exactly `1.00`; for every `safeRevealed` in
`[0, SAFE_TILES]` the result lies in `[1.00, MAX_MULT]`; and
`curvedMultiplier SAFE_TILES` is exactly `20.00` after 2-decimal rounding. -/
theorem curvedMultiplier_range :
    curvedMultiplier 0 = 1 ∧
    (∀ n : ℕ, n ≤ SAFE_TILES → 1 ≤ curvedMultiplier n ∧ curvedMultiplier n ≤ MAX_MULT) ∧
    curvedMultiplier SAFE_TILES = 20 := by
  have hsafe : SAFE_TILES = 24 := by norm_num [SAFE_TILES, TOTAL_TILES, SIZE]
  refine ⟨curvedMultiplier_zero, ?_, ?_⟩
  · intro n hn
    rw [hsafe] at hn
    rcases Nat.eq_zero_or_pos n with h0 | h1
    · rw [h0, curvedMultiplier_zero]
      constructor
      · exact le_refl 1
      · norm_num [MAX_MULT]
    · have hb := curvedMultiplier_bounds n h1 hn
      constructor
      · linarith [hb.1]
      · have : (MAX_MULT : ℝ) = 20 := by norm_num [MAX_MULT]
        rw [this]
        exact hb.2
  · rw [hsafe]
    exact curvedMultiplier_top

/-- Witness for C3 at `safeRevealed = 5`. -/
theorem curvedMultiplier_range_witness :
    1 ≤ curvedMultiplier 5 ∧ curvedMultiplier 5 ≤ MAX_MULT :=
  curvedMultiplier_range.2.1 5 (by decide)

/-- C4: `curvedMultiplier` is monotonically non-decreasing on `[0, SAFE_TILES]`,
including across the 2-decimal rounding step. -/
theorem curvedMultiplier_mono (a b : ℕ) (hab : a ≤ b) (hb : b ≤ SAFE_TILES) :
    curvedMultiplier a ≤ curvedMultiplier b := by
  have hsafe : SAFE_TILES = 24 := by norm_num [SAFE_TILES, TOTAL_TILES, SIZE]
  rw [hsafe] at hb
  rcases Nat.eq_zero_or_pos a with h0 | h1
  · rw [h0, curvedMultiplier_zero]
    rcases Nat.eq_zero_or_pos b with hb0 | hb1
    · rw [hb0, curvedMultiplier_zero]
    · linarith [(curvedMultiplier_bounds b hb1 hb).1]
  · have hb1 : 1 ≤ b := le_trans h1 hab
    rw [curvedMultiplier_eq a h1 (le_trans hab hb), curvedMultiplier_eq b hb1 hb]
    apply round2_monotone
    have ht : ((a : ℝ) / 24) ≤ ((b : ℝ) / 24) := by
      apply div_le_div_of_nonneg_right ?_ (by norm_num)
      · exact_mod_cast hab
    have h0a : (0 : ℝ) ≤ (a : ℝ) / 24 := by positivity
    have := Real.rpow_le_rpow h0a ht (by norm_num : (0:ℝ) ≤ 2.2)
    nlinarith [this]

/-- Witness for C4 at `a = 3`, `b = 10`. -/
theorem curvedMultiplier_mono_witness : curvedMultiplier 3 ≤ curvedMultiplier 10 :=
  curvedMultiplier_mono 3 10 (by decide) (by decide)

/-- C1: from any state with `balance ≤ 0`, the start action is the reported
`NoFunds` condition and leaves the whole state unchanged: no transition to
`Playing`, no balance deduction, and the board (`revealed`, `mineIdx`) and
`safeRevealed` are not reset. -/
theorem startRound_noFunds (s : MooState) (newMine : ℤ) (h : s.balance ≤ 0) :
    NoFunds s ∧ startRound newMine s = s := by
  refine ⟨h, ?_⟩
  unfold startRound
  rw [if_pos (Or.inr h)]

/-- Witness for C1: a zero-balance idle state is left untouched. -/
theorem startRound_noFunds_witness :
    NoFunds (⟨0, 50, 3, fun _ => false, .idle, 0, 0⟩ : MooState) ∧
      startRound 7 (⟨0, 50, 3, fun _ => false, .idle, 0, 0⟩ : MooState) =
        (⟨0, 50, 3, fun _ => false, .idle, 0, 0⟩ : MooState) :=
  startRound_noFunds ⟨0, 50, 3, fun _ => false, .idle, 0, 0⟩ 7 (le_refl 0)

/-- Evaluation of a successful start: when the Start button is enabled
(`gameState ≠ playing` and `0 < balance`), `startRound` commits the clamped
wager and starts a fresh round. -/
theorem startRound_run (s : MooState) (newMine : ℤ)
    (h1 : s.gameState ≠ .playing) (h2 : 0 < s.balance) :
    startRound newMine s =
      { s with
        wager := max 1 (min s.wager s.balance)
        balance := round2 (s.balance - max 1 (min s.wager s.balance))
        revealed := fun _ => false
        mineIdx := newMine
        safeRevealed := 0
        gameState := .playing } := by
  have hgate : ¬(s.gameState = .playing ∨ s.balance ≤ 0) := by
    rintro (h | h)
    · exact h1 h
    · linarith
  have hw : (1 : ℝ) ≤ max 1 (min s.wager s.balance) := le_max_left _ _
  have hguard : ¬(max 1 (min s.wager s.balance) ≤ (0 : ℝ)) := by linarith
  simp only [startRound, startGame]
  rw [if_neg hgate, if_neg hguard]

/-- C2 fails as stated, at two concrete inputs.  First, with
`balance = 1/2` (reachable: start from balance `3/2` with requested wager 1,
leaving `1/2`) the Start button is enabled, the round starts, and the
committed wager is `max(1, min(50, 1/2)) = 1 > 1/2 = balance_before`.
Second, with `balance = 1000` and requested wager `1.001`, the round starts
with `w = 1.001` but the new balance is `round2(1000 - 1.001) = 999.00`,
not `998.999 = balance_before - w` exactly. -/
theorem startRound_clamp_cex :
    ((startRound 0 (⟨1/2, 50, 0, fun _ => false, .idle, 0, 0⟩ : MooState)).gameState
        = GameState.playing ∧
      (startRound 0 (⟨1/2, 50, 0, fun _ => false, .idle, 0, 0⟩ : MooState)).wager = 1 ∧
      ¬ (startRound 0 (⟨1/2, 50, 0, fun _ => false, .idle, 0, 0⟩ : MooState)).wager
          ≤ (1/2 : ℝ)) ∧
    ((startRound 0 (⟨1000, 1001/1000, 0, fun _ => false, .idle, 0, 0⟩ : MooState)).gameState
        = GameState.playing ∧
      (startRound 0 (⟨1000, 1001/1000, 0, fun _ => false, .idle, 0, 0⟩ : MooState)).balance
        ≠ 1000 -
          (startRound 0 (⟨1000, 1001/1000, 0, fun _ => false, .idle, 0, 0⟩ : MooState)).wager) := by
  have hrun1 := startRound_run ⟨1/2, 50, 0, fun _ => false, .idle, 0, 0⟩ 0
    (by decide) (by norm_num)
  have hrun2 := startRound_run ⟨1000, 1001/1000, 0, fun _ => false, .idle, 0, 0⟩ 0
    (by decide) (by norm_num)
  have hmin1 : min (50 : ℝ) (1/2) = 1/2 := min_eq_right (by norm_num)
  have hmax1 : max (1 : ℝ) (1/2) = 1 := max_eq_left (by norm_num)
  have hmin2 : min (1001/1000 : ℝ) 1000 = 1001/1000 := min_eq_left (by norm_num)
  have hmax2 : max (1 : ℝ) (1001/1000) = 1001/1000 := max_eq_right (by norm_num)
  constructor
  · rw [hrun1]
    refine ⟨rfl, ?_, ?_⟩
    · show max 1 (min (50 : ℝ) (1/2)) = 1
      rw [hmin1, hmax1]
    · show ¬ max 1 (min (50 : ℝ) (1/2)) ≤ (1/2 : ℝ)
      rw [hmin1, hmax1]
      norm_num
  · rw [hrun2]
    refine ⟨rfl, ?_⟩
    show round2 ((1000 : ℝ) - max 1 (min (1001/1000 : ℝ) 1000)) ≠
      1000 - max 1 (min (1001/1000 : ℝ) 1000)
    rw [hmin2, hmax2]
    have hv : (1000 : ℝ) - 1001/1000 = 998999/1000 := by norm_num
    rw [hv]
    have := round2_eval (998999/1000) 99900 (by norm_num) (by norm_num)
    rw [this]
    norm_num

/-- C2 (amended): for every successful start (`gameState ≠ Playing`,
`0 < balance`), the committed wager is `w = max(1, min(requestedWager, balance))`
with `0 < w`; `w ≤ balance_before` holds whenever `balance_before ≥ 1` (with
`0 < balance_before < 1` the clamp yields `w = 1 > balance_before`); and the
new balance is `round2(balance_before − w)`, which equals `balance_before − w`
exactly whenever that difference is an integer multiple of `1/100`. -/
theorem startRound_wager_spec (s : MooState) (newMine : ℤ)
    (h1 : s.gameState ≠ .playing) (h2 : 0 < s.balance) :
    (startRound newMine s).gameState = .playing ∧
    (startRound newMine s).wager = max 1 (min s.wager s.balance) ∧
    0 < (startRound newMine s).wager ∧
    (1 ≤ s.balance → (startRound newMine s).wager ≤ s.balance) ∧
    (startRound newMine s).balance = round2 (s.balance - (startRound newMine s).wager) ∧
    (∀ k : ℤ, s.balance - (startRound newMine s).wager = (k : ℝ) / 100 →
      (startRound newMine s).balance = s.balance - (startRound newMine s).wager) := by
  rw [startRound_run s newMine h1 h2]
  refine ⟨rfl, rfl, ?_, ?_, rfl, ?_⟩
  · show (0 : ℝ) < max 1 (min s.wager s.balance)
    have := le_max_left (1 : ℝ) (min s.wager s.balance)
    linarith
  · intro hb
    show max 1 (min s.wager s.balance) ≤ s.balance
    exact max_le hb (min_le_right _ _)
  · intro k hk
    have hk' : s.balance - max 1 (min s.wager s.balance) = (k : ℝ) / 100 := hk
    show round2 (s.balance - max 1 (min s.wager s.balance)) =
      s.balance - max 1 (min s.wager s.balance)
    rw [hk']
    exact round2_int_div k

/-- Witness for C2 (amended) at balance `1`, requested wager `50`. -/
theorem startRound_wager_spec_witness :
    (startRound 2 (⟨1, 50, 0, fun _ => false, .idle, 0, 0⟩ : MooState)).wager ≤ 1 ∧
    (startRound 2 (⟨1, 50, 0, fun _ => false, .idle, 0, 0⟩ : MooState)).gameState
      = GameState.playing := by
  have h := startRound_wager_spec ⟨1, 50, 0, fun _ => false, .idle, 0, 0⟩ 2
    (by decide) zero_lt_one
  exact ⟨h.2.2.2.1 (le_refl 1), h.1⟩

/-- C5: in `Playing`, revealing the (not yet revealed) hazard tile busts the
round: the state becomes `Busted`, `safeRevealed` is not incremented, and the
balance keeps its post-wager value. -/
theorem revealTile_hazard (s : MooState) (h : s.gameState = .playing)
    (h2 : s.revealed s.mineIdx = false) :
    revealTile s.mineIdx s =
      { s with
        revealed := fun j => if j = s.mineIdx then true else s.revealed j
        gameState := .busted } ∧
    (revealTile s.mineIdx s).safeRevealed = s.safeRevealed ∧
    (revealTile s.mineIdx s).balance = s.balance ∧
    (revealTile s.mineIdx s).gameState = .busted := by
  have h2' : ¬(s.revealed s.mineIdx = true) := by simp [h2]
  have hmain : revealTile s.mineIdx s =
      { s with
        revealed := fun j => if j = s.mineIdx then true else s.revealed j
        gameState := .busted } := by
    unfold revealTile
    rw [if_neg (not_not_intro h), if_neg h2', if_pos rfl]
  refine ⟨hmain, ?_, ?_, ?_⟩ <;> rw [hmain]

/-- Witness for C5: busting on the first move of a fresh round. -/
theorem revealTile_hazard_witness :
    revealTile 3 (⟨900, 25, 3, fun _ => false, .playing, 0, 0⟩ : MooState) =
      { (⟨900, 25, 3, fun _ => false, .playing, 0, 0⟩ : MooState) with
        revealed := fun j => if j = 3 then true
          else (⟨900, 25, 3, fun _ => false, .playing, 0, 0⟩ : MooState).revealed j
        gameState := .busted } ∧
    (revealTile 3 (⟨900, 25, 3, fun _ => false, .playing, 0, 0⟩ : MooState)).safeRevealed = 0 ∧
    (revealTile 3 (⟨900, 25, 3, fun _ => false, .playing, 0, 0⟩ : MooState)).balance = 900 ∧
    (revealTile 3 (⟨900, 25, 3, fun _ => false, .playing, 0, 0⟩ : MooState)).gameState
      = GameState.busted :=
  revealTile_hazard ⟨900, 25, 3, fun _ => false, .playing, 0, 0⟩ rfl rfl

/-- C6 fails as stated at a (not reachable by the program's own arithmetic,
but allowed by the spec's data model) balance `1/3`: with `wager = 1` and
`safeRevealed = 0` the payout is `round2(1 × 1) = 1`, but the new balance is
`round2(1/3 + 1) = 1.33`, a credit of `1.33 − 1/3 = 299/300 ≠ 1`: the code
rounds the whole new balance, not just the payout. -/
theorem cashOut_credit_cex :
    (cashOut (⟨1/3, 1, 0, fun _ => false, .playing, 0, 0⟩ : MooState)).gameState
      = GameState.cashout ∧
    (cashOut (⟨1/3, 1, 0, fun _ => false, .playing, 0, 0⟩ : MooState)).balance - 1/3
      ≠ round2 ((1 : ℝ) * curvedMultiplier 0) := by
  have hpp : potentialPayout (⟨1/3, 1, 0, fun _ => false, .playing, 0, 0⟩ : MooState) = 1 := by
    show round2 ((1 : ℝ) * curvedMultiplier 0) = 1
    rw [curvedMultiplier_zero, mul_one]
    exact round2_one
  have hco : cashOut (⟨1/3, 1, 0, fun _ => false, .playing, 0, 0⟩ : MooState) =
      { (⟨1/3, 1, 0, fun _ => false, .playing, 0, 0⟩ : MooState) with
        balance := round2 ((1/3 : ℝ) +
          potentialPayout (⟨1/3, 1, 0, fun _ => false, .playing, 0, 0⟩ : MooState))
        gameState := .cashout } := by
    unfold cashOut
    rw [if_neg (not_not_intro rfl)]
  rw [hco, hpp]
  refine ⟨rfl, ?_⟩
  show round2 ((1/3 : ℝ) + 1) - 1/3 ≠ round2 ((1 : ℝ) * curvedMultiplier 0)
  rw [curvedMultiplier_zero, mul_one, round2_one]
  have hv : (1/3 : ℝ) + 1 = 4/3 := by norm_num
  rw [hv, round2_eval (4/3) 133 (by norm_num) (by norm_num)]
  norm_num

/-- C6 (amended): in `Playing`, `cashOut` sets the balance to
`round2(balance + payout)` with `payout = round2(wager × curvedMultiplier(safeRevealed))`
and the state to `CashedOut`; the credit equals the payout exactly whenever the
balance is an integer multiple of `1/100` (which holds for the initial balance
and for every balance the program's own updates produce).  In any other state
`cashOut` changes nothing. -/
theorem cashOut_spec (s : MooState) :
    (s.gameState = .playing →
      cashOut s =
        { s with
          balance := round2 (s.balance + potentialPayout s)
          gameState := .cashout } ∧
      (∀ k : ℤ, s.balance = (k : ℝ) / 100 →
        (cashOut s).balance = s.balance + potentialPayout s)) ∧
    (s.gameState ≠ .playing → cashOut s = s) := by
  constructor
  · intro h
    have hco : cashOut s =
        { s with
          balance := round2 (s.balance + potentialPayout s)
          gameState := .cashout } := by
      unfold cashOut
      rw [if_neg (not_not_intro h)]
    refine ⟨hco, ?_⟩
    intro k hk
    rw [hco]
    show round2 (s.balance + potentialPayout s) = s.balance + potentialPayout s
    have hp : potentialPayout s =
        ((round (s.wager * curvedMultiplier s.safeRevealed * 100) : ℤ) : ℝ) / 100 := rfl
    rw [hk, hp]
    have hsum : (k : ℝ) / 100 +
        ((round (s.wager * curvedMultiplier s.safeRevealed * 100) : ℤ) : ℝ) / 100 =
        ((k + round (s.wager * curvedMultiplier s.safeRevealed * 100) : ℤ) : ℝ) / 100 := by
      push_cast
      ring
    rw [hsum, round2_int_div]
  · intro h
    unfold cashOut
    rw [if_pos h]

/-- Witness for C6 (amended) at balance `1`, wager `2`, `safeRevealed = 0`. -/
theorem cashOut_spec_witness :
    (cashOut (⟨1, 2, 0, fun _ => false, .playing, 0, 0⟩ : MooState)).gameState
      = GameState.cashout ∧
    (cashOut (⟨1, 2, 0, fun _ => false, .playing, 0, 0⟩ : MooState)).balance
      = 1 + potentialPayout (⟨1, 2, 0, fun _ => false, .playing, 0, 0⟩ : MooState) := by
  have h := (cashOut_spec ⟨1, 2, 0, fun _ => false, .playing, 0, 0⟩).1 rfl
  refine ⟨?_, ?_⟩
  · rw [h.1]
  · exact h.2 100 (by
      show (1 : ℝ) = ((100 : ℤ) : ℝ) / 100
      norm_num)

/-- C7: `claimPoints now` is a no-op when `now − lastClaim < CLAIM_INTERVAL`;
otherwise it adds exactly `CLAIM_AMOUNT` to the balance and sets `lastClaim`
to `now`, leaving every other field unchanged — for every current balance
(the operation itself never inspects the balance). -/
theorem claimPoints_spec (now : ℤ) (s : MooState) :
    (now - s.lastClaim < CLAIM_INTERVAL → claimPoints now s = s) ∧
    (CLAIM_INTERVAL ≤ now - s.lastClaim →
      claimPoints now s =
        { s with balance := s.balance + CLAIM_AMOUNT, lastClaim := now }) := by
  constructor
  · intro h
    unfold claimPoints
    rw [if_neg (by
      simp only [canClaim, ge_iff_le, decide_eq_true_eq]
      exact not_le.mpr h)]
  · intro h
    unfold claimPoints
    rw [if_pos (by
      simp only [canClaim, ge_iff_le, decide_eq_true_eq]
      exact h)]

/-- Witness for C7: a claim exactly at the cooldown boundary, from a zero
balance, and a rejected claim one millisecond earlier. -/
theorem claimPoints_spec_witness :
    (claimPoints 21600000 (⟨0, 50, 0, fun _ => false, .idle, 0, 0⟩ : MooState)).balance
      = 0 + CLAIM_AMOUNT ∧
    (claimPoints 21600000 (⟨0, 50, 0, fun _ => false, .idle, 0, 0⟩ : MooState)).lastClaim
      = 21600000 ∧
    claimPoints 21599999 (⟨0, 50, 0, fun _ => false, .idle, 0, 0⟩ : MooState)
      = (⟨0, 50, 0, fun _ => false, .idle, 0, 0⟩ : MooState) := by
  have h := (claimPoints_spec 21600000 ⟨0, 50, 0, fun _ => false, .idle, 0, 0⟩).2 (by decide)
  have h' := (claimPoints_spec 21599999 ⟨0, 50, 0, fun _ => false, .idle, 0, 0⟩).1 (by decide)
  exact ⟨by rw [h], by rw [h], h'⟩

/-- C8 fails as stated: one millisecond past the cooldown the code's
`timeLeft` is `-1`, not `max(0, ·) = 0` — the source never clamps it. -/
theorem timeLeft_cex :
    timeLeft 21600001 0 = -1 ∧
    timeLeft 21600001 0 ≠ max 0 (CLAIM_INTERVAL - (21600001 - 0)) ∧
    timeLeft 21600001 0 < 0 := by
  refine ⟨by decide, ?_, by decide⟩
  have h1 : timeLeft 21600001 0 = -1 := by decide
  have h2 : max (0 : ℤ) (CLAIM_INTERVAL - (21600001 - 0)) = 0 := by decide
  rw [h1, h2]
  decide

/-- C8 (amended): `timeLeft now = CLAIM_INTERVAL − (now − lastClaim)` with no
clamping, so it agrees with `max(0, CLAIM_INTERVAL − (now − lastClaim))`
exactly when `now − lastClaim ≤ CLAIM_INTERVAL`; and whenever it is not
positive the rendered countdown `formatTime` shows `"Ready!"`, so no negative
remaining time is ever displayed. -/
theorem timeLeft_spec (now lastClaim : ℤ) :
    timeLeft now lastClaim = CLAIM_INTERVAL - (now - lastClaim) ∧
    (now - lastClaim ≤ CLAIM_INTERVAL →
      timeLeft now lastClaim = max 0 (CLAIM_INTERVAL - (now - lastClaim))) ∧
    (timeLeft now lastClaim ≤ 0 → formatTime (timeLeft now lastClaim) = "Ready!") := by
  refine ⟨rfl, ?_, ?_⟩
  · intro h
    unfold timeLeft
    rw [max_eq_right (by linarith)]
  · intro h
    unfold formatTime
    rw [if_pos h]

/-- Witness for C8 (amended): inside the cooldown window the value agrees with
the clamped formula, and past the window the countdown renders `"Ready!"`. -/
theorem timeLeft_spec_witness :
    timeLeft 100 0 = max 0 (CLAIM_INTERVAL - (100 - 0)) ∧
    formatTime (timeLeft 21600001 0) = "Ready!" :=
  ⟨(timeLeft_spec 100 0).2.1 (by decide), (timeLeft_spec 21600001 0).2.2 (by decide)⟩

/-- C9: every operation invoked outside its valid states is a silent no-op
that leaves the whole state unchanged: `revealTile` and `cashOut` outside
`Playing`, `revealTile` on an already-open index (so revealing the same index
twice changes nothing), and the start action while `Playing`. -/
theorem invalid_calls_noop :
    (∀ (s : MooState) (idx : ℤ), s.gameState ≠ .playing → revealTile idx s = s) ∧
    (∀ s : MooState, s.gameState ≠ .playing → cashOut s = s) ∧
    (∀ (s : MooState) (idx : ℤ), s.revealed idx = true → revealTile idx s = s) ∧
    (∀ (s : MooState) (idx : ℤ), revealTile idx (revealTile idx s) = revealTile idx s) ∧
    (∀ (s : MooState) (newMine : ℤ), s.gameState = .playing → startRound newMine s = s) := by
  have hrev : ∀ (s : MooState) (idx : ℤ), s.gameState ≠ .playing → revealTile idx s = s := by
    intro s idx h
    unfold revealTile
    rw [if_pos h]
  have hrev2 : ∀ (s : MooState) (idx : ℤ), s.revealed idx = true → revealTile idx s = s := by
    intro s idx h
    unfold revealTile
    by_cases hg : s.gameState ≠ .playing
    · rw [if_pos hg]
    · rw [if_neg hg, if_pos h]
  refine ⟨hrev, ?_, hrev2, ?_, ?_⟩
  · intro s h
    unfold cashOut
    rw [if_pos h]
  · intro s idx
    by_cases hg : s.gameState = .playing
    · by_cases hr : s.revealed idx = true
      · rw [hrev2 s idx hr]
        exact hrev2 s idx hr
      · by_cases hm : idx = s.mineIdx
        · have h1 : revealTile idx s =
              { s with
                revealed := fun j => if j = idx then true else s.revealed j
                gameState := .busted } := by
            unfold revealTile
            rw [if_neg (not_not_intro hg), if_neg hr, if_pos hm]
          rw [h1]
          apply hrev
          intro hc
          simp at hc
        · have h1 : revealTile idx s =
              { s with
                revealed := fun j => if j = idx then true else s.revealed j
                safeRevealed := s.safeRevealed + 1 } := by
            unfold revealTile
            rw [if_neg (not_not_intro hg), if_neg hr, if_neg hm]
          rw [h1]
          apply hrev2
          show (fun j => if j = idx then true else s.revealed j) idx = true
          simp
    · rw [hrev s idx hg]
      exact hrev s idx hg
  · intro s newMine h
    unfold startRound
    rw [if_pos (Or.inl h)]

/-- Witness for C9: `cashOut` from `Idle` and the start action while
`Playing` both leave the state untouched. -/
theorem invalid_calls_noop_witness :
    cashOut (⟨5, 1, 0, fun _ => false, .idle, 0, 0⟩ : MooState) =
      (⟨5, 1, 0, fun _ => false, .idle, 0, 0⟩ : MooState) ∧
    startRound 4 (⟨5, 1, 0, fun _ => false, .playing, 0, 0⟩ : MooState) =
      (⟨5, 1, 0, fun _ => false, .playing, 0, 0⟩ : MooState) :=
  ⟨invalid_calls_noop.2.1 _ (by decide), invalid_calls_noop.2.2.2.2 _ 4 rfl⟩

/-- A playing state used to exercise out-of-range reveals. -/
noncomputable def demoState : MooState :=
  ⟨950, 50, 7, fun _ => false, .playing, 0, 0⟩

/-- Repeatedly reveal the out-of-range indices
`TOTAL_TILES, TOTAL_TILES+1, …, TOTAL_TILES+n-1`. -/
def overReveal (n : ℕ) (s : MooState) : MooState :=
  (List.range n).foldl (fun t i => revealTile ((TOTAL_TILES : ℤ) + (i : ℤ)) t) s

/-- C10: `revealTile` never validates its index.  In `Playing`, any
out-of-range index that is not yet recorded is accepted: it is recorded as
revealed and — since it cannot equal the in-range hazard position —
`safeRevealed` is incremented.  Consequently 25 reveals of the out-of-range
indices 25..49 drive `safeRevealed` to `25 > SAFE_TILES` and put indices
outside the board into the revealed set. -/
theorem revealTile_unvalidated :
    (∀ (s : MooState) (idx : ℤ), s.gameState = .playing → s.revealed idx = false →
      0 ≤ s.mineIdx → s.mineIdx < (TOTAL_TILES : ℤ) →
      (idx < 0 ∨ (TOTAL_TILES : ℤ) ≤ idx) →
      revealTile idx s =
        { s with
          revealed := fun j => if j = idx then true else s.revealed j
          safeRevealed := s.safeRevealed + 1 }) ∧
    ((overReveal 25 demoState).safeRevealed = 25 ∧
      SAFE_TILES < 25 ∧
      (overReveal 25 demoState).revealed 30 = true ∧
      ¬(0 ≤ (30 : ℤ) ∧ (30 : ℤ) < (TOTAL_TILES : ℤ))) := by
  constructor
  · intro s idx hg hr h0 h1 hout
    have hm : idx ≠ s.mineIdx := by
      rcases hout with h | h
      · omega
      · omega
    have hrne : ¬(s.revealed idx = true) := by simp [hr]
    unfold revealTile
    rw [if_neg (not_not_intro hg), if_neg hrne, if_neg hm]
  · refine ⟨?_, ?_, ?_, ?_⟩
    · rfl
    · decide
    · rfl
    · decide

/-- Witness for C10: the single out-of-range reveal at index 30. -/
theorem revealTile_unvalidated_witness :
    revealTile 30 demoState =
      { demoState with
        revealed := fun j => if j = 30 then true else demoState.revealed j
        safeRevealed := demoState.safeRevealed + 1 } :=
  revealTile_unvalidated.1 demoState 30 rfl rfl (by decide) (by decide)
    (Or.inr (by decide))
